import Mathlib

/-!
Verification development for the client-acquisition repository.

The subject is the follow-up state machine of `src/followup_system.py`
(record store, follow-up scheduler, dispatcher wrapper) and the metrics
aggregator of `src/llm_brain.py` (`calculate_metrics`), together with the
JSON-file record store (`load_followup_tracking` / `save_followup_tracking`).

Modelling conventions:
* Timestamps (`datetime` values) are modelled as integers (seconds since an
  epoch).  `timedelta.days` is floor division of the elapsed seconds by
  86400, which is `Int.fdiv` here.
* A tracking record is a Python dict; the fields the code reads are modelled
  as a structure.  Fields read with `.get` (which yields `None` when absent,
  and `None`/missing are both falsy) become `Option`/`Bool` fields;
  `initial_sent` is an `Option` because `data["initial_sent"]` raises
  `KeyError` when the key is missing, which the model surfaces as
  `Except.error ()`.
* The Mailgun transport behind `send_email` is modelled as an oracle result:
  either an HTTP status code or a raised exception; `send_email` maps it to a
  `Bool` exactly as the `try/except` in the source does.  Inside the
  scheduler pass the dispatcher is a parameter
  `send : String → String → String → Bool` (recipient, subject, tag); the
  static template bodies are not observed by any property and are elided.
* `time.sleep(5)` (real-time pacing) and the `print` logging have no
  observable effect on the store or counters and are not modelled.
-/

/-- The two follow-up stages of `followup_system.py`. -/
inductive Stage where
  | followup1
  | followup2
deriving DecidableEq

/-- Model of one tracking record (a Python dict value of the tracking store),
restricted to the fields `followup_system.py` and `llm_brain.py` read.
`initial_sent = none` models a malformed record whose dict lacks the
`"initial_sent"` key. -/
structure OutreachRecord where
  company_name : Option String
  first_name : Option String
  initial_sent : Option Int
  followup_1_sent : Option Int
  followup_2_sent : Option Int
  replied : Bool
  opened : Bool
  clicked : Bool
deriving DecidableEq

/-- `(now - initial_sent).days` in Python: floor division of the elapsed
seconds by 86400 (`timedelta.days` floors toward negative infinity). -/
def days_since (now initial : Int) : Int :=
  Int.fdiv (now - initial) 86400

/-- `FOLLOWUP_1["subject"].format(company_name=company)`. -/
def followup1Subject (company_name : String) : String :=
  "following up - " ++ company_name

/-- `FOLLOWUP_2["subject"].format(company_name=company)`. -/
def followup2Subject (company_name : String) : String :=
  "last note - " ++ company_name

/-- Outcome of the Mailgun POST inside `send_email`: either a response with a
status code, or a raised exception (timeout, connection error, ...). -/
inductive TransportResult where
  | status (code : Nat)
  | exn
deriving DecidableEq

/-- `send_email` (`followup_system.py`, lines 109-132): returns
`response.status_code == 200`, and `False` when the request raises. -/
def send_email (transport : TransportResult) : Bool :=
  match transport with
  | .status code => code == 200
  | .exn => false

/-- The body of the `for email, data in tracking.items()` loop of
`send_followups` (`followup_system.py`, lines 150-187) for one record.
Returns the updated record, the stage whose dispatch was attempted (if any),
and whether the dispatcher reported success.  `Except.error ()` models the
`KeyError` raised by `data["initial_sent"]` on a malformed record. -/
def stepRecord (send : String → String → String → Bool) (now : Int)
    (email : String) (data : OutreachRecord) :
    Except Unit (OutreachRecord × Option Stage × Bool) :=
  if data.replied || data.clicked then
    .ok (data, none, false)
  else
    match data.initial_sent with
    | none => .error ()
    | some initial =>
      let ds := days_since now initial
      let company := data.company_name.getD "your clinic"
      if 3 ≤ ds ∧ data.followup_1_sent = none then
        let ok := send email (followup1Subject company) "followup-1"
        .ok (if ok then { data with followup_1_sent := some now } else data,
             some Stage.followup1, ok)
      else if 7 ≤ ds ∧ data.followup_2_sent = none then
        let ok := send email (followup2Subject company) "followup-2"
        .ok (if ok then { data with followup_2_sent := some now } else data,
             some Stage.followup2, ok)
      else
        .ok (data, none, false)

/-- The stage whose dispatch a record evaluation attempts (independently of
the dispatcher's outcome); `none` when the record is skipped, not yet due, or
malformed. -/
def stepAttempt (send : String → String → String → Bool) (now : Int)
    (email : String) (data : OutreachRecord) : Option Stage :=
  match stepRecord send now email data with
  | .ok (_, att, _) => att
  | .error _ => none

/-- `send_followups` (`followup_system.py`, lines 136-199): one scheduler
pass over the store (as an insertion-ordered association list, mirroring the
Python dict), with a single `now` snapshot.  Returns the updated store (which
the source then persists once, line 192) and the two success counters
`sent_followup_1` / `sent_followup_2`.  An uncaught `KeyError` on a malformed
record aborts the pass (`Except.error ()`). -/
def send_followups (send : String → String → String → Bool) (now : Int) :
    List (String × OutreachRecord) →
    Except Unit (List (String × OutreachRecord) × Nat × Nat)
  | [] => .ok ([], 0, 0)
  | (email, data) :: rest =>
    match stepRecord send now email data with
    | .error e => .error e
    | .ok (data2, att, ok) =>
      match send_followups send now rest with
      | .error e => .error e
      | .ok (rest2, c1, c2) =>
        .ok ((email, data2) :: rest2,
          (if att = some Stage.followup1 ∧ ok = true then 1 else 0) + c1,
          (if att = some Stage.followup2 ∧ ok = true then 1 else 0) + c2)

instance {e a : Type} [DecidableEq e] [DecidableEq a] : DecidableEq (Except e a) :=
  fun x y =>
    match x, y with
    | .error u, .error v =>
      if h : u = v then isTrue (by rw [h]) else isFalse (by intro hh; cases hh; exact h rfl)
    | .ok u, .ok v =>
      if h : u = v then isTrue (by rw [h]) else isFalse (by intro hh; cases hh; exact h rfl)
    | .error _, .ok _ => isFalse (by intro hh; cases hh)
    | .ok _, .error _ => isFalse (by intro hh; cases hh)

/-- Python-dict insertion on an association list: an existing key is
overwritten in place (dicts keep the original position), a fresh key is
appended. -/
def dictInsert {α : Type} (k : String) (v : α) :
    List (String × α) → List (String × α)
  | [] => [(k, v)]
  | (k2, v2) :: rest =>
    if k2 = k then (k, v) :: rest else (k2, v2) :: dictInsert k v rest

/-- The fresh record `track_initial_send` stores (`followup_system.py`,
lines 94-103). -/
def newRecord (company : String) (now : Int) : OutreachRecord :=
  { company_name := some company
    first_name := some "there"
    initial_sent := some now
    followup_1_sent := none
    followup_2_sent := none
    replied := false
    opened := false
    clicked := false }

/-- Python `str.lower()` (on the ASCII strings used as store keys),
character by character. -/
def pyLower (s : String) : String :=
  ⟨s.data.map Char.toLower⟩

/-- `track_initial_send` (`followup_system.py`, lines 90-105):
`tracking[email.lower()] = {...}` — the key is assigned a brand-new record,
whether or not it already exists. -/
def track_initial_send (now : Int) (email company : String)
    (tracking : List (String × OutreachRecord)) :
    List (String × OutreachRecord) :=
  dictInsert (pyLower email) (newRecord company now) tracking

/-- The fields of a record that a scheduler pass must leave untouched
(everything except the two follow-up timestamps). -/
def recordFrame (r r2 : OutreachRecord) : Prop :=
  r2.company_name = r.company_name ∧ r2.first_name = r.first_name ∧
  r2.initial_sent = r.initial_sent ∧ r2.replied = r.replied ∧
  r2.opened = r.opened ∧ r2.clicked = r.clicked

lemma stepRecord_ok_frame {send : String → String → String → Bool}
    {now : Int} {email : String} {data data2 : OutreachRecord}
    {att : Option Stage} {ok : Bool}
    (h : stepRecord send now email data = .ok (data2, att, ok)) :
    recordFrame data data2 ∧
    (∀ t, data.followup_1_sent = some t → data2.followup_1_sent = some t) ∧
    (∀ t, data.followup_2_sent = some t → data2.followup_2_sent = some t) ∧
    (att = some Stage.followup1 → ok = true → data2.followup_1_sent = some now) := by
  unfold stepRecord at h
  split_ifs at h with hskip
  · simp only [Except.ok.injEq, Prod.mk.injEq] at h
    obtain ⟨rfl, rfl, rfl⟩ := h
    exact ⟨⟨rfl, rfl, rfl, rfl, rfl, rfl⟩, fun t ht => ht, fun t ht => ht,
      fun hatt => by simp at hatt⟩
  · cases hinit : data.initial_sent with
    | none => rw [hinit] at h; cases h
    | some initial =>
      rw [hinit] at h
      dsimp only at h
      split_ifs at h with h1 h2 h3 h4
      · -- stage 1 due, dispatcher succeeded
        simp only [Except.ok.injEq, Prod.mk.injEq] at h
        obtain ⟨rfl, rfl, rfl⟩ := h
        refine ⟨⟨rfl, rfl, hinit.symm, rfl, rfl, rfl⟩, ?_, fun t ht => ht, fun _ _ => rfl⟩
        intro t ht
        rw [h1.2] at ht
        cases ht
      · -- stage 1 due, dispatcher failed
        simp only [Except.ok.injEq, Prod.mk.injEq] at h
        obtain ⟨rfl, rfl, rfl⟩ := h
        exact ⟨⟨rfl, rfl, rfl, rfl, rfl, rfl⟩, fun t ht => ht, fun t ht => ht,
          fun _ hok => absurd hok h2⟩
      · -- stage 2 due, dispatcher succeeded
        simp only [Except.ok.injEq, Prod.mk.injEq] at h
        obtain ⟨rfl, rfl, rfl⟩ := h
        refine ⟨⟨rfl, rfl, hinit.symm, rfl, rfl, rfl⟩, fun t ht => ht, ?_,
          fun hatt => by simp at hatt⟩
        intro t ht
        rw [h3.2] at ht
        cases ht
      · -- stage 2 due, dispatcher failed
        simp only [Except.ok.injEq, Prod.mk.injEq] at h
        obtain ⟨rfl, rfl, rfl⟩ := h
        exact ⟨⟨rfl, rfl, rfl, rfl, rfl, rfl⟩, fun t ht => ht, fun t ht => ht,
          fun hatt => by simp at hatt⟩
      · -- nothing due
        simp only [Except.ok.injEq, Prod.mk.injEq] at h
        obtain ⟨rfl, rfl, rfl⟩ := h
        exact ⟨⟨rfl, rfl, rfl, rfl, rfl, rfl⟩, fun t ht => ht, fun t ht => ht,
          fun hatt => by simp at hatt⟩

lemma stepAttempt_indep (send send2 : String → String → String → Bool)
    (now : Int) (email : String) (data : OutreachRecord) :
    stepAttempt send now email data = stepAttempt send2 now email data := by
  unfold stepAttempt stepRecord
  split_ifs with hskip
  · rfl
  · cases data.initial_sent with
    | none => rfl
    | some initial =>
      dsimp only
      split_ifs <;> rfl

lemma stepAttempt_not_followup1_of_set (send : String → String → String → Bool)
    (now : Int) (email : String) (data : OutreachRecord)
    (h : data.followup_1_sent ≠ none) :
    stepAttempt send now email data ≠ some Stage.followup1 := by
  unfold stepAttempt stepRecord
  split_ifs with hskip
  · simp
  · cases hinit : data.initial_sent with
    | none => simp
    | some initial =>
      dsimp only
      split_ifs with h1 h2 h3 h4
      · exact absurd h1.2 h
      · exact absurd h1.2 h
      · simp
      · simp
      · simp

/-- C1: for a record that is not skipped and has an `initial_sent` timestamp,
one pass evaluation attempts stage 1 iff `days_since ≥ 3` and
`followup_1_sent` is unset; otherwise it attempts stage 2 iff
`days_since ≥ 7` and `followup_2_sent` is unset; otherwise it attempts
nothing.  In particular `days_since < 3` yields no dispatch, `days_since ≥ 7`
with neither stamp set yields exactly a stage-1 dispatch, and at most one
stage is attempted per record per pass. -/
theorem followup_dispatch_policy (send : String → String → String → Bool)
    (now : Int) (email : String) (data : OutreachRecord) (initial : Int)
    (hr : data.replied = false) (hc : data.clicked = false)
    (hi : data.initial_sent = some initial) :
    (stepAttempt send now email data = some Stage.followup1 ↔
      3 ≤ days_since now initial ∧ data.followup_1_sent = none) ∧
    (stepAttempt send now email data = some Stage.followup2 ↔
      ¬(3 ≤ days_since now initial ∧ data.followup_1_sent = none) ∧
        7 ≤ days_since now initial ∧ data.followup_2_sent = none) ∧
    (stepAttempt send now email data = none ↔
      ¬(3 ≤ days_since now initial ∧ data.followup_1_sent = none) ∧
        ¬(7 ≤ days_since now initial ∧ data.followup_2_sent = none)) := by
  unfold stepAttempt stepRecord
  rw [hr, hc, hi]
  dsimp only
  rw [if_neg (by simp : ¬((false || false) = true))]
  split_ifs with h1 h2 h3 h4 <;> simp_all

theorem followup_dispatch_policy_witness :
    stepAttempt (fun _ _ _ => true) (5 * 86400) "a@x.com" (newRecord "Acme" 0) =
      some Stage.followup1 := by
  have h := followup_dispatch_policy (fun _ _ _ => true) (5 * 86400) "a@x.com"
    (newRecord "Acme" 0) 0 rfl rfl rfl
  exact h.1.mpr (by decide)

/-- The malformed record of C3: its dict has no `"initial_sent"` key. -/
def malformedRecord : OutreachRecord :=
  { company_name := some "Acme"
    first_name := some "there"
    initial_sent := none
    followup_1_sent := none
    followup_2_sent := none
    replied := false
    opened := false
    clicked := false }

/-- C3 (code bug): the source evaluates `data["initial_sent"]` without a
guard, so a store containing one record that lacks `initial_sent` makes the
whole pass raise `KeyError` — the remaining records are never evaluated and
nothing is saved — instead of skipping the record defensively as the spec
requires. -/
theorem pass_crashes_on_malformed_record :
    send_followups (fun _ _ _ => true) (10 * 86400)
      [("a@x.com", malformedRecord), ("b@y.com", newRecord "Beta" 0)] =
      .error () := by
  rfl

/-- A record that has already replied, been opened, and received stage 1. -/
def trackedRecord : OutreachRecord :=
  { company_name := some "Acme"
    first_name := some "there"
    initial_sent := some 0
    followup_1_sent := some 86400
    followup_2_sent := none
    replied := true
    opened := true
    clicked := false }

/-- C4 counterexample: calling `track_initial_send` again on an existing key
replaces the whole record — `initial_sent` changes, the already-set
`followup_1_sent` is cleared, and the monotonic `replied` flag is reset to
false. -/
theorem track_initial_send_overwrites_existing :
    track_initial_send (2 * 86400) "A@X.com" "Acme" [("a@x.com", trackedRecord)] =
      [("a@x.com", newRecord "Acme" (2 * 86400))] ∧
    trackedRecord.initial_sent = some 0 ∧
    (newRecord "Acme" (2 * 86400)).initial_sent = some 172800 ∧
    trackedRecord.replied = true ∧
    (newRecord "Acme" (2 * 86400)).replied = false ∧
    trackedRecord.followup_1_sent = some 86400 ∧
    (newRecord "Acme" (2 * 86400)).followup_1_sent = none := by
  refine ⟨?_, rfl, rfl, rfl, rfl, rfl, rfl⟩
  decide

/-- C4 (amended): within a scheduler pass the invariants do hold — a record
evaluation never changes `initial_sent`, `replied`, `opened` or `clicked`,
never overwrites an already-set follow-up timestamp, and after a successful
stage-1 dispatch a second evaluation at the same `now` does not re-attempt
stage 1.  (`track_initial_send` on an existing key, however, replaces the
record, as the counterexample shows.) -/
theorem scheduler_pass_preserves_record_invariants
    (send send2 : String → String → String → Bool) (now : Int) (email : String)
    (data data2 : OutreachRecord) (att : Option Stage) (ok : Bool)
    (h : stepRecord send now email data = .ok (data2, att, ok)) :
    data2.initial_sent = data.initial_sent ∧
    data2.replied = data.replied ∧ data2.opened = data.opened ∧
    data2.clicked = data.clicked ∧
    (∀ t, data.followup_1_sent = some t → data2.followup_1_sent = some t) ∧
    (∀ t, data.followup_2_sent = some t → data2.followup_2_sent = some t) ∧
    (att = some Stage.followup1 → ok = true →
      stepAttempt send2 now email data2 ≠ some Stage.followup1) := by
  obtain ⟨⟨hcn, hfn, hin, hrep, hop, hcl⟩, hm1, hm2, hsucc⟩ := stepRecord_ok_frame h
  refine ⟨hin, hrep, hop, hcl, hm1, hm2, ?_⟩
  intro hatt hok
  have hset := hsucc hatt hok
  exact stepAttempt_not_followup1_of_set send2 now email data2 (by rw [hset]; simp)

theorem scheduler_pass_preserves_record_invariants_witness :
    stepAttempt (fun _ _ _ => true) (5 * 86400) "a@x.com"
      { newRecord "Acme" 0 with followup_1_sent := some (5 * 86400) } ≠
      some Stage.followup1 := by
  have h := scheduler_pass_preserves_record_invariants (fun _ _ _ => true)
    (fun _ _ _ => true) (5 * 86400) "a@x.com" (newRecord "Acme" 0)
    { newRecord "Acme" 0 with followup_1_sent := some (5 * 86400) }
    (some Stage.followup1) true (by decide)
  exact h.2.2.2.2.2.2 rfl rfl

/-- C5: a record with `replied` or `clicked` true is skipped entirely: no
dispatch is attempted, its record (hence both follow-up timestamps) is
unchanged, and a pass over just this record counts zero sends. -/
theorem replied_or_clicked_never_dispatched
    (send : String → String → String → Bool) (now : Int) (email : String)
    (data : OutreachRecord) (h : data.replied = true ∨ data.clicked = true) :
    stepRecord send now email data = .ok (data, none, false) ∧
    send_followups send now [(email, data)] = .ok ([(email, data)], 0, 0) := by
  have hb : (data.replied || data.clicked) = true := by
    rcases h with h | h <;> simp [h]
  have h1 : stepRecord send now email data = .ok (data, none, false) := by
    unfold stepRecord
    rw [if_pos hb]
  exact ⟨h1, by simp [send_followups, h1]⟩

theorem replied_or_clicked_never_dispatched_witness :
    stepRecord (fun _ _ _ => true) (100 * 86400) "a@x.com"
      { newRecord "Acme" 0 with replied := true } =
      .ok ({ newRecord "Acme" 0 with replied := true }, none, false) :=
  (replied_or_clicked_never_dispatched (fun _ _ _ => true) (100 * 86400)
    "a@x.com" { newRecord "Acme" 0 with replied := true } (Or.inl rfl)).1

/-- C6: when the dispatcher reports failure for a record the evaluation
leaves the record (hence both timestamps) unchanged and reports no success,
a pass over it increments neither counter, the attempted stage does not
depend on the dispatcher (so the unchanged record is attempted again next
pass), and `send_email` maps a transport exception to `False` rather than
raising. -/
theorem dispatch_failure_leaves_record_eligible
    (send send2 : String → String → String → Bool) (now : Int) (email : String)
    (data : OutreachRecord) (initial : Int)
    (hi : data.initial_sent = some initial)
    (hfail : ∀ subject tag, send email subject tag = false) :
    stepRecord send now email data = .ok (data, stepAttempt send now email data, false) ∧
    send_followups send now [(email, data)] = .ok ([(email, data)], 0, 0) ∧
    stepAttempt send2 now email data = stepAttempt send now email data ∧
    send_email TransportResult.exn = false := by
  have hstep : ∃ att0, stepRecord send now email data = .ok (data, att0, false) := by
    unfold stepRecord
    split_ifs with hskip
    · exact ⟨none, rfl⟩
    · rw [hi]
      dsimp only
      split_ifs with h1 hs1 h2 hs2
      · simp [hfail] at hs1
      · rw [hfail]
        exact ⟨some Stage.followup1, rfl⟩
      · simp [hfail] at hs2
      · rw [hfail]
        exact ⟨some Stage.followup2, rfl⟩
      · exact ⟨none, rfl⟩
  obtain ⟨att0, hstep⟩ := hstep
  have hatt : stepAttempt send now email data = att0 := by
    unfold stepAttempt
    rw [hstep]
  refine ⟨by rw [hatt]; exact hstep, ?_, stepAttempt_indep send2 send now email data, rfl⟩
  simp [send_followups, hstep]

theorem dispatch_failure_leaves_record_eligible_witness :
    stepRecord (fun _ _ _ => false) (5 * 86400) "a@x.com" (newRecord "Acme" 0) =
      .ok (newRecord "Acme" 0, some Stage.followup1, false) := by
  have h := dispatch_failure_leaves_record_eligible (fun _ _ _ => false)
    (fun _ _ _ => true) (5 * 86400) "a@x.com" (newRecord "Acme" 0) 0 rfl
    (fun _ _ => rfl)
  have h2 : stepAttempt (fun _ _ _ => false) (5 * 86400) "a@x.com"
      (newRecord "Acme" 0) = some Stage.followup1 := by decide
  exact h2 ▸ h.1

/-- C8: a completed scheduler pass keeps exactly the same keys in the same
order, and every record differs from its pre-pass value at most in
`followup_1_sent` / `followup_2_sent` — `company_name`, `first_name`,
`initial_sent`, `replied`, `opened`, `clicked` are all unchanged.  (The
source then persists this one final store in a single `save_followup_tracking`
call after the loop, line 192.) -/
theorem send_followups_frame (send : String → String → String → Bool)
    (now : Int) (store result : List (String × OutreachRecord)) (c1 c2 : Nat)
    (h : send_followups send now store = .ok (result, c1, c2)) :
    result.map Prod.fst = store.map Prod.fst ∧
    List.Forall₂ (fun p q : String × OutreachRecord => recordFrame p.2 q.2)
      store result := by
  induction store generalizing result c1 c2 with
  | nil =>
    simp only [send_followups, Except.ok.injEq, Prod.mk.injEq] at h
    obtain ⟨rfl, rfl, rfl⟩ := h
    exact ⟨rfl, List.Forall₂.nil⟩
  | cons p rest ih =>
    obtain ⟨email, data⟩ := p
    simp only [send_followups] at h
    cases hstep : stepRecord send now email data with
    | error e => rw [hstep] at h; cases h
    | ok triple =>
      obtain ⟨data2, att, ok⟩ := triple
      rw [hstep] at h
      dsimp only at h
      cases hrec : send_followups send now rest with
      | error e => rw [hrec] at h; cases h
      | ok res2 =>
        obtain ⟨rest2, cc1, cc2⟩ := res2
        rw [hrec] at h
        simp only [Except.ok.injEq, Prod.mk.injEq] at h
        obtain ⟨rfl, rfl, rfl⟩ := h
        obtain ⟨ih1, ih2⟩ := ih rest2 cc1 cc2 hrec
        exact ⟨by simp [ih1], List.Forall₂.cons (stepRecord_ok_frame hstep).1 ih2⟩

theorem send_followups_frame_witness :
    [("a@x.com", { newRecord "Acme" 0 with followup_1_sent := some (5 * 86400) }),
     ("b@y.com", { newRecord "Beta" 0 with replied := true })].map Prod.fst =
      [("a@x.com", newRecord "Acme" 0),
       ("b@y.com", { newRecord "Beta" 0 with replied := true })].map Prod.fst ∧
    List.Forall₂ (fun p q : String × OutreachRecord => recordFrame p.2 q.2)
      [("a@x.com", newRecord "Acme" 0),
       ("b@y.com", { newRecord "Beta" 0 with replied := true })]
      [("a@x.com", { newRecord "Acme" 0 with followup_1_sent := some (5 * 86400) }),
       ("b@y.com", { newRecord "Beta" 0 with replied := true })] :=
  send_followups_frame (fun _ _ _ => true) (5 * 86400)
    [("a@x.com", newRecord "Acme" 0),
     ("b@y.com", { newRecord "Beta" 0 with replied := true })]
    [("a@x.com", { newRecord "Acme" 0 with followup_1_sent := some (5 * 86400) }),
     ("b@y.com", { newRecord "Beta" 0 with replied := true })] 1 0 (by decide)

/-- One entry of the events file (`/tmp/events_las.json`), as read by
`calculate_metrics`: only `e.get("type")` is consumed. -/
structure EmailEvent where
  type : Option String
deriving DecidableEq

/-- Round-half-to-even on an exact rational (Python `round`'s rounding rule;
the source applies it to a float, modelled here over exact rationals). -/
def roundHalfEven (q : ℚ) : ℤ :=
  let f := ⌊q⌋
  let r := q - f
  if r < 1 / 2 then f
  else if 1 / 2 < r then f + 1
  else if f % 2 = 0 then f else f + 1

/-- Python `round(x, 1)`: round to one decimal place, half to even. -/
def pythonRound1 (q : ℚ) : ℚ :=
  (roundHalfEven (10 * q) : ℚ) / 10

/-- `round(num / den * 100, 1) if den > 0 else 0` — the rate idiom of
`calculate_metrics` (`llm_brain.py`, lines 110-117). -/
def rate (num den : ℕ) : ℚ :=
  if 0 < den then pythonRound1 ((num : ℚ) / (den : ℚ) * 100) else 0

/-- `len([e for e in events if e.get("type") == t])`. -/
def countEvents (events : List EmailEvent) (t : String) : ℕ :=
  (events.filter (fun e => e.type == some t)).length

/-- The stage-attribution loop of `calculate_metrics` (`llm_brain.py`,
lines 90-101): returns `(initial_opens, followup_1_opens, followup_2_opens)`. -/
def stageOpens : List (String × OutreachRecord) → ℕ × ℕ × ℕ
  | [] => (0, 0, 0)
  | (_, data) :: rest =>
    let acc := stageOpens rest
    if data.opened then
      if data.followup_1_sent = none then (acc.1 + 1, acc.2.1, acc.2.2)
      else if data.followup_2_sent = none then (acc.1, acc.2.1 + 1, acc.2.2)
      else (acc.1, acc.2.1, acc.2.2 + 1)
    else acc

/-- The summary dict returned by `calculate_metrics`. -/
structure Metrics where
  total_sent : ℕ
  opens : ℕ
  clicks : ℕ
  bounces : ℕ
  complaints : ℕ
  unsubscribes : ℕ
  open_rate : ℚ
  click_rate : ℚ
  bounce_rate : ℚ
  followup_1_sent : ℕ
  followup_2_sent : ℕ
  initial_open_rate : ℚ
  followup_1_open_rate : ℚ
  followup_2_open_rate : ℚ
deriving DecidableEq

/-- `calculate_metrics` (`llm_brain.py`, lines 73-118). -/
def calculate_metrics (tracking : List (String × OutreachRecord))
    (events : List EmailEvent) : Metrics :=
  let total_sent := tracking.length
  let opens := countEvents events "opened"
  let clicks := countEvents events "clicked"
  let bounces := countEvents events "bounced"
  let complaints := countEvents events "complained"
  let unsubscribes := countEvents events "unsubscribed"
  let followup_1_sent :=
    (tracking.filter (fun p => p.2.followup_1_sent.isSome)).length
  let followup_2_sent :=
    (tracking.filter (fun p => p.2.followup_2_sent.isSome)).length
  let so := stageOpens tracking
  { total_sent := total_sent
    opens := opens
    clicks := clicks
    bounces := bounces
    complaints := complaints
    unsubscribes := unsubscribes
    open_rate := rate opens total_sent
    click_rate := rate clicks total_sent
    bounce_rate := rate bounces total_sent
    followup_1_sent := followup_1_sent
    followup_2_sent := followup_2_sent
    initial_open_rate := rate so.1 total_sent
    followup_1_open_rate := rate so.2.1 followup_1_sent
    followup_2_open_rate := rate so.2.2 followup_2_sent }

lemma roundHalfEven_ge_floor (q : ℚ) : ⌊q⌋ ≤ roundHalfEven q := by
  unfold roundHalfEven
  dsimp only
  split_ifs <;> omega

lemma roundHalfEven_le_ceil (q : ℚ) : roundHalfEven q ≤ ⌈q⌉ := by
  unfold roundHalfEven
  dsimp only
  split_ifs with h1 h2 h3
  · exact Int.floor_le_ceil q
  · have hlt : (⌊q⌋ : ℚ) < q := by linarith
    exact Int.add_one_le_iff.mpr (Int.lt_ceil.mpr hlt)
  · exact Int.floor_le_ceil q
  · have hlt : (⌊q⌋ : ℚ) < q := by
      have heq : q - ⌊q⌋ = 1 / 2 := le_antisymm (not_lt.mp h2) (not_lt.mp h1)
      linarith
    exact Int.add_one_le_iff.mpr (Int.lt_ceil.mpr hlt)

lemma pythonRound1_nonneg {q : ℚ} (h : 0 ≤ q) : 0 ≤ pythonRound1 q := by
  unfold pythonRound1
  have h1 : (0 : ℤ) ≤ ⌊10 * q⌋ := Int.floor_nonneg.mpr (by positivity)
  have h2 : (0 : ℤ) ≤ roundHalfEven (10 * q) :=
    le_trans h1 (roundHalfEven_ge_floor (10 * q))
  have h3 : (0 : ℚ) ≤ (roundHalfEven (10 * q) : ℚ) := by exact_mod_cast h2
  linarith

lemma pythonRound1_le_100 {q : ℚ} (h : q ≤ 100) : pythonRound1 q ≤ 100 := by
  unfold pythonRound1
  have h2 : ⌈10 * q⌉ ≤ 1000 := Int.ceil_le.mpr (by push_cast; linarith)
  have h3 : roundHalfEven (10 * q) ≤ 1000 :=
    le_trans (roundHalfEven_le_ceil (10 * q)) h2
  have h4 : (roundHalfEven (10 * q) : ℚ) ≤ 1000 := by exact_mod_cast h3
  linarith

lemma rate_nonneg (num den : ℕ) : 0 ≤ rate num den := by
  unfold rate
  split_ifs with h
  · exact pythonRound1_nonneg (by positivity)
  · exact le_refl 0

lemma rate_le_100 {num den : ℕ} (h : num ≤ den) : rate num den ≤ 100 := by
  unfold rate
  split_ifs with hd
  · apply pythonRound1_le_100
    have hd' : (0 : ℚ) < (den : ℚ) := by exact_mod_cast hd
    rw [div_mul_eq_mul_div, div_le_iff₀ hd']
    have hq : (num : ℚ) ≤ (den : ℚ) := by exact_mod_cast h
    linarith
  · norm_num

lemma stageOpens_le (tracking : List (String × OutreachRecord)) :
    (stageOpens tracking).1 ≤ tracking.length ∧
    (stageOpens tracking).2.1 ≤
      (tracking.filter (fun p => p.2.followup_1_sent.isSome)).length ∧
    (stageOpens tracking).2.2 ≤
      (tracking.filter (fun p => p.2.followup_2_sent.isSome)).length := by
  induction tracking with
  | nil => simp [stageOpens]
  | cons p rest ih =>
    obtain ⟨email, d⟩ := p
    obtain ⟨ih1, ih2, ih3⟩ := ih
    cases ho : d.opened <;> cases hf1 : d.followup_1_sent <;>
      cases hf2 : d.followup_2_sent <;>
      simp [stageOpens, ho, hf1, hf2] <;> omega

lemma pythonRound1_int (n : ℤ) : pythonRound1 (n : ℚ) = n := by
  unfold pythonRound1 roundHalfEven
  have h10 : (10 : ℚ) * (n : ℚ) = ((10 * n : ℤ) : ℚ) := by push_cast; ring
  rw [h10, Int.floor_intCast]
  dsimp only
  rw [if_pos (by norm_num : ((10 * n : ℤ) : ℚ) - ((10 * n : ℤ) : ℚ) < 1 / 2)]
  push_cast
  ring

/-- C2 counterexample: `opens` is counted from the independent events list,
not bounded by the number of tracked records, so with one tracked record and
two `opened` events the aggregator reports an open rate of 200, outside
[0, 100]. -/
theorem metrics_open_rate_can_exceed_100 :
    (calculate_metrics [("a@x.com", newRecord "Acme" 0)]
        [⟨some "opened"⟩, ⟨some "opened"⟩]).open_rate = 200 ∧
    ¬((calculate_metrics [("a@x.com", newRecord "Acme" 0)]
        [⟨some "opened"⟩, ⟨some "opened"⟩]).open_rate ≤ 100) := by
  have h1 : (calculate_metrics [("a@x.com", newRecord "Acme" 0)]
      [⟨some "opened"⟩, ⟨some "opened"⟩]).open_rate = rate 2 1 := rfl
  have h2 : rate 2 1 = 200 := by
    unfold rate
    rw [if_pos (by norm_num : 0 < 1)]
    have : ((2 : ℕ) : ℚ) / ((1 : ℕ) : ℚ) * 100 = ((200 : ℤ) : ℚ) := by norm_num
    rw [this, pythonRound1_int]
    norm_num
  rw [h1, h2]
  norm_num

/-- C2 (amended): every rate the aggregator produces is nonnegative and every
rate with a zero denominator is 0 (never a division error); the three
per-stage open rates, whose numerators are counted from the tracking records
themselves, also never exceed 100.  The event-based rates (`open_rate`,
`click_rate`, `bounce_rate`) are not bounded by 100, as the counterexample
shows. -/
theorem calculate_metrics_rate_bounds (tracking : List (String × OutreachRecord))
    (events : List EmailEvent) :
    (0 ≤ (calculate_metrics tracking events).open_rate ∧
     0 ≤ (calculate_metrics tracking events).click_rate ∧
     0 ≤ (calculate_metrics tracking events).bounce_rate ∧
     0 ≤ (calculate_metrics tracking events).initial_open_rate ∧
     0 ≤ (calculate_metrics tracking events).followup_1_open_rate ∧
     0 ≤ (calculate_metrics tracking events).followup_2_open_rate) ∧
    ((calculate_metrics tracking events).initial_open_rate ≤ 100 ∧
     (calculate_metrics tracking events).followup_1_open_rate ≤ 100 ∧
     (calculate_metrics tracking events).followup_2_open_rate ≤ 100) ∧
    ((calculate_metrics tracking events).total_sent = 0 →
      (calculate_metrics tracking events).open_rate = 0 ∧
      (calculate_metrics tracking events).click_rate = 0 ∧
      (calculate_metrics tracking events).bounce_rate = 0 ∧
      (calculate_metrics tracking events).initial_open_rate = 0) ∧
    ((calculate_metrics tracking events).followup_1_sent = 0 →
      (calculate_metrics tracking events).followup_1_open_rate = 0) ∧
    ((calculate_metrics tracking events).followup_2_sent = 0 →
      (calculate_metrics tracking events).followup_2_open_rate = 0) := by
  obtain ⟨hb1, hb2, hb3⟩ := stageOpens_le tracking
  refine ⟨⟨rate_nonneg _ _, rate_nonneg _ _, rate_nonneg _ _, rate_nonneg _ _,
      rate_nonneg _ _, rate_nonneg _ _⟩,
    ⟨rate_le_100 hb1, rate_le_100 hb2, rate_le_100 hb3⟩, ?_, ?_, ?_⟩
  · intro h
    dsimp only [calculate_metrics] at h ⊢
    rw [h]
    simp [rate]
  · intro h
    dsimp only [calculate_metrics] at h ⊢
    rw [h]
    simp [rate]
  · intro h
    dsimp only [calculate_metrics] at h ⊢
    rw [h]
    simp [rate]

theorem calculate_metrics_rate_bounds_witness :
    0 ≤ (calculate_metrics [] []).open_rate ∧
    (calculate_metrics [] []).open_rate = 0 :=
  ⟨(calculate_metrics_rate_bounds [] []).1.1,
   ((calculate_metrics_rate_bounds [] []).2.2.1 rfl).1⟩

/-- The three outreach stages, for stating the open-attribution rule. -/
inductive StageTag where
  | initial
  | followup1
  | followup2
deriving DecidableEq

/-- The spec's open-attribution rule, stated directly from the spec's words
(§4.3): an opened record is attributed to initial when `followup_1_sent` is
unset, else to followup-1 when `followup_2_sent` is unset, else to
followup-2; an unopened record is attributed to no stage.  Compared against
the source-derived `stageOpens`. -/
def specAttributedStage (data : OutreachRecord) : Option StageTag :=
  if data.opened then
    if data.followup_1_sent = none then some StageTag.initial
    else if data.followup_2_sent = none then some StageTag.followup1
    else some StageTag.followup2
  else none

/-- C9: the aggregator's per-stage open counters realise exactly the spec's
attribution rule — each counter counts the records the rule attributes to
that stage, and the three counters together count every opened record exactly
once (unopened records contribute to none). -/
theorem stage_open_attribution (tracking : List (String × OutreachRecord)) :
    (stageOpens tracking).1 =
      tracking.countP (fun p => specAttributedStage p.2 == some StageTag.initial) ∧
    (stageOpens tracking).2.1 =
      tracking.countP (fun p => specAttributedStage p.2 == some StageTag.followup1) ∧
    (stageOpens tracking).2.2 =
      tracking.countP (fun p => specAttributedStage p.2 == some StageTag.followup2) ∧
    (stageOpens tracking).1 + (stageOpens tracking).2.1 + (stageOpens tracking).2.2 =
      tracking.countP (fun p => p.2.opened) := by
  induction tracking with
  | nil => simp [stageOpens]
  | cons p rest ih =>
    obtain ⟨email, d⟩ := p
    obtain ⟨ih1, ih2, ih3, ih4⟩ := ih
    cases ho : d.opened with
    | false =>
      have hd : specAttributedStage d = none := by
        simp [specAttributedStage, ho]
      simp [stageOpens, List.countP_cons, ho, hd, ih1, ih2, ih3, ih4]
      omega
    | true =>
      cases hf1 : d.followup_1_sent with
      | none =>
        have hd : specAttributedStage d = some StageTag.initial := by
          simp [specAttributedStage, ho, hf1]
        simp [stageOpens, List.countP_cons, ho, hf1, hd, ih1, ih2, ih3, ih4]
        omega
      | some t1 =>
        cases hf2 : d.followup_2_sent with
        | none =>
          have hd : specAttributedStage d = some StageTag.followup1 := by
            simp [specAttributedStage, ho, hf1, hf2]
          simp [stageOpens, List.countP_cons, ho, hf1, hf2, hd, ih1, ih2, ih3, ih4]
          omega
        | some t2 =>
          have hd : specAttributedStage d = some StageTag.followup2 := by
            simp [specAttributedStage, ho, hf1, hf2]
          simp [stageOpens, List.countP_cons, ho, hf1, hf2, hd, ih1, ih2, ih3, ih4]
          omega

/-!
The record-store file layer (`load_followup_tracking` /
`save_followup_tracking`, `followup_system.py` lines 75-88) delegates
serialisation to `json.dump(data, f, indent=2)` and `json.load(f)`.  Both are
modelled here: a JSON value type, the exact printer (`indent=2`,
`ensure_ascii` escaping, including surrogate pairs for astral characters) and
a character-level parser.  JSON numbers are omitted from the value type: the
tracking store written by this program contains only strings, booleans and
nulls (§3 of the data model), and no property here concerns numeric fields.
Python accepts lone-surrogate `\uXXXX` escapes (producing lone surrogates in
a `str`); such code points are not representable in Lean characters and never
occur in printed output, so the parser rejects them.
-/

/-- A JSON value (numbers omitted; see above). -/
inductive Json where
  | null
  | bool (b : Bool)
  | str (s : String)
  | arr (items : List Json)
  | obj (members : List (String × Json))

/-- Lower-case hexadecimal digit, as CPython's encoder emits. -/
def hexDigit (n : Nat) : Char :=
  if n < 10 then Char.ofNat (48 + n) else Char.ofNat (87 + n)

/-- Four-digit hexadecimal rendering of `n < 0x10000`. -/
def hex4 (n : Nat) : List Char :=
  [hexDigit (n / 4096 % 16), hexDigit (n / 256 % 16),
   hexDigit (n / 16 % 16), hexDigit (n % 16)]

/-- A `\uXXXX` escape. -/
def uEscape (n : Nat) : List Char :=
  '\\' :: 'u' :: hex4 n

/-- CPython's `ensure_ascii` string-character encoder: `"` and `\` get a
backslash escape, the five named control escapes are used, other characters
outside printable ASCII (code < 32 or > 126) become `\uXXXX`, astral
characters become a surrogate pair. -/
def escapeChar (c : Char) : List Char :=
  if c = '"' then ['\\', '"']
  else if c = '\\' then ['\\', '\\']
  else if c = '\n' then ['\\', 'n']
  else if c = '\t' then ['\\', 't']
  else if c = '\r' then ['\\', 'r']
  else if c = Char.ofNat 8 then ['\\', 'b']
  else if c = Char.ofNat 12 then ['\\', 'f']
  else if 32 ≤ c.toNat ∧ c.toNat ≤ 126 then [c]
  else if c.toNat < 65536 then uEscape c.toNat
  else uEscape (55296 + (c.toNat - 65536) / 1024) ++
       uEscape (56320 + (c.toNat - 65536) % 1024)

/-- A JSON string literal: quote, escaped characters, quote. -/
def printString (s : String) : List Char :=
  '"' :: (s.data.flatMap escapeChar ++ ['"'])

/-- Indentation. -/
def spaces (n : Nat) : List Char :=
  List.replicate n ' '

mutual

/-- `json.dump(..., indent=2)` output for a value nested at depth `d`:
items and members sit on their own lines indented `2 * (d + 1)`, the closing
bracket on its own line indented `2 * d`; empty containers print inline. -/
def printJson : Nat → Json → List Char
  | _, .null => ['n', 'u', 'l', 'l']
  | _, .bool true => ['t', 'r', 'u', 'e']
  | _, .bool false => ['f', 'a', 'l', 's', 'e']
  | _, .str s => printString s
  | _, .arr [] => ['[', ']']
  | d, .arr (x :: xs) =>
    '[' :: '\n' :: (spaces (2 * (d + 1)) ++ printJson (d + 1) x ++
      printItems (d + 1) xs ++ '\n' :: (spaces (2 * d) ++ [']']))
  | _, .obj [] => ['{', '}']
  | d, .obj (m :: ms) =>
    '{' :: '\n' :: (spaces (2 * (d + 1)) ++ printMember (d + 1) m ++
      printMembers (d + 1) ms ++ '\n' :: (spaces (2 * d) ++ ['}']))

/-- The `",\n<indent>..."` continuation of a non-empty array. -/
def printItems : Nat → List Json → List Char
  | _, [] => []
  | d, x :: xs =>
    ',' :: '\n' :: (spaces (2 * d) ++ printJson d x ++ printItems d xs)

/-- `"key": value`. -/
def printMember : Nat → String × Json → List Char
  | d, (k, v) => printString k ++ ':' :: ' ' :: printJson d v

/-- The `",\n<indent>..."` continuation of a non-empty object. -/
def printMembers : Nat → List (String × Json) → List Char
  | _, [] => []
  | d, m :: ms =>
    ',' :: '\n' :: (spaces (2 * d) ++ printMember d m ++ printMembers d ms)

end

/-- `json.dump(data, f, indent=2)`: the exact file content written. -/
def dumps (j : Json) : String :=
  ⟨printJson 0 j⟩

/-- JSON insignificant whitespace. -/
def isWsChar (c : Char) : Bool :=
  c == ' ' || c == '\n' || c == '\t' || c == '\r'

/-- Skip insignificant whitespace. -/
def skipWs : List Char → List Char
  | [] => []
  | c :: rest => if isWsChar c then skipWs rest else c :: rest

/-- Value of one hexadecimal digit (both cases accepted, as `json.load`
does). -/
def hexVal (c : Char) : Option Nat :=
  if '0' ≤ c ∧ c ≤ '9' then some (c.toNat - 48)
  else if 'a' ≤ c ∧ c ≤ 'f' then some (c.toNat - 87)
  else if 'A' ≤ c ∧ c ≤ 'F' then some (c.toNat - 55)
  else none

/-- Value of a four-digit hexadecimal escape. -/
def hex4Val (a b c d : Char) : Option Nat :=
  match hexVal a, hexVal b, hexVal c, hexVal d with
  | some x, some y, some z, some w => some (4096 * x + 256 * y + 16 * z + w)
  | _, _, _, _ => none

/-- The single-character escapes of JSON. -/
def unescape (e : Char) : Option Char :=
  if e = '"' then some '"'
  else if e = '\\' then some '\\'
  else if e = '/' then some '/'
  else if e = 'b' then some (Char.ofNat 8)
  else if e = 'f' then some (Char.ofNat 12)
  else if e = 'n' then some '\n'
  else if e = 'r' then some '\r'
  else if e = 't' then some '\t'
  else none

mutual

/-- Parse a string body (after the opening quote) up to the closing quote:
escapes are decoded, surrogate pairs combined, raw control characters
rejected (strict mode, as `json.load` defaults to). -/
def parseStringBody : List Char → Option (List Char × List Char)
  | [] => none
  | c :: rest =>
    if c = '"' then some ([], rest)
    else if c = '\\' then parseEscape rest
    else if c.toNat < 32 then none
    else (parseStringBody rest).map (fun r => (c :: r.1, r.2))

/-- Parse what follows a backslash. -/
def parseEscape : List Char → Option (List Char × List Char)
  | [] => none
  | e :: rest =>
    if e = 'u' then parseUEscape rest
    else
      match unescape e with
      | none => none
      | some ec => (parseStringBody rest).map (fun r => (ec :: r.1, r.2))

/-- Parse the four hex digits after `\u`, combining a high surrogate with
the following `\uXXXX` low surrogate (lone surrogates are rejected; see the
section comment). -/
def parseUEscape : List Char → Option (List Char × List Char)
  | a :: b :: c :: d :: rest =>
    (match hex4Val a b c d with
     | none => none
     | some n =>
       if 55296 ≤ n ∧ n < 56320 then parseLowSurrogate n rest
       else if 56320 ≤ n ∧ n < 57344 then none
       else (parseStringBody rest).map (fun r => (Char.ofNat n :: r.1, r.2)))
  | _ => none

/-- Parse the `\uXXXX` low half of a surrogate pair whose high half had
value `n`. -/
def parseLowSurrogate : Nat → List Char → Option (List Char × List Char)
  | n, b1 :: b2 :: a :: b :: c :: d :: rest =>
    (if b1 = '\\' ∧ b2 = 'u' then
       match hex4Val a b c d with
       | none => none
       | some m =>
         if 56320 ≤ m ∧ m < 57344 then
           (parseStringBody rest).map (fun r =>
             (Char.ofNat (65536 + 1024 * (n - 55296) + (m - 56320)) :: r.1, r.2))
         else none
     else none)
  | _, _ => none

end

/-- Python-dict accumulation of parsed object members: later duplicate keys
overwrite earlier ones in place. -/
def dedupKeys (ms : List (String × Json)) : List (String × Json) :=
  ms.foldl (fun acc kv => dictInsert kv.1 kv.2 acc) []

mutual

/-- Parse one JSON value (fuel-indexed recursion; the top level passes more
fuel than the nesting depth of any parseable input). -/
def parseValue : Nat → List Char → Option (Json × List Char)
  | 0, _ => none
  | fuel + 1, input =>
    match skipWs input with
    | 'n' :: 'u' :: 'l' :: 'l' :: rest => some (.null, rest)
    | 't' :: 'r' :: 'u' :: 'e' :: rest => some (.bool true, rest)
    | 'f' :: 'a' :: 'l' :: 's' :: 'e' :: rest => some (.bool false, rest)
    | '"' :: rest => (parseStringBody rest).map (fun r => (.str ⟨r.1⟩, r.2))
    | '[' :: rest =>
      (match skipWs rest with
       | [] => none
       | c :: rest2 =>
         if c = ']' then some (.arr [], rest2)
         else (parseItems fuel (c :: rest2)).map (fun r => (.arr r.1, r.2)))
    | '{' :: rest =>
      (match skipWs rest with
       | [] => none
       | c :: rest2 =>
         if c = '}' then some (.obj [], rest2)
         else (parseMembers fuel (c :: rest2)).map (fun r => (.obj (dedupKeys r.1), r.2)))
    | _ => none

/-- Parse `value (',' items | ']')` — the elements of a non-empty array. -/
def parseItems : Nat → List Char → Option (List Json × List Char)
  | 0, _ => none
  | fuel + 1, input =>
    match parseValue fuel input with
    | none => none
    | some (v, r1) =>
      match skipWs r1 with
      | [] => none
      | c :: r2 =>
        if c = ',' then (parseItems fuel r2).map (fun r => (v :: r.1, r.2))
        else if c = ']' then some ([v], r2)
        else none

/-- Parse `string ':' value (',' members | '}')` — the members of a
non-empty object. -/
def parseMembers : Nat → List Char → Option (List (String × Json) × List Char)
  | 0, _ => none
  | fuel + 1, input =>
    match skipWs input with
    | [] => none
    | c0 :: rest =>
      if c0 = '"' then
        match parseStringBody rest with
        | none => none
        | some (kcs, r1) =>
          match skipWs r1 with
          | [] => none
          | c1 :: r2 =>
            if c1 = ':' then
              match parseValue fuel r2 with
              | none => none
              | some (v, r3) =>
                match skipWs r3 with
                | [] => none
                | c2 :: r4 =>
                  if c2 = ',' then
                    (parseMembers fuel r4).map (fun r => ((⟨kcs⟩, v) :: r.1, r.2))
                  else if c2 = '}' then some ([(⟨kcs⟩, v)], r4)
                  else none
            else none
      else none

end

/-- `json.load`: one value, with only whitespace allowed after it. -/
def loads (s : String) : Option Json :=
  match parseValue (s.data.length + 1) s.data with
  | some (j, rest) => if skipWs rest = [] then some j else none
  | none => none

/-- `load_followup_tracking` (`followup_system.py`, lines 75-83): the file
content is `none` when the file is missing; a parse failure is caught and
yields `{}`; a successful parse is returned as-is (the source performs no
shape validation). -/
def load_followup_tracking (file : Option String) : Json :=
  match file with
  | none => .obj []
  | some s =>
    match loads s with
    | some j => j
    | none => .obj []

/-- `save_followup_tracking` (`followup_system.py`, lines 85-88): the file
content after the whole-file overwrite. -/
def save_followup_tracking (data : Json) : Option String :=
  some (dumps data)

/-- Well-formed JSON values: object keys are distinct at every level (true
of everything `json.dump` can receive from a Python dict). -/
inductive JsonWF : Json → Prop where
  | null : JsonWF .null
  | bool (b : Bool) : JsonWF (.bool b)
  | str (s : String) : JsonWF (.str s)
  | arr (xs : List Json) : (∀ x ∈ xs, JsonWF x) → JsonWF (.arr xs)
  | obj (ms : List (String × Json)) : (ms.map Prod.fst).Nodup →
      (∀ kv ∈ ms, JsonWF kv.2) → JsonWF (.obj ms)

mutual

/-- Fuel sufficient for `parseValue` on the printed form of `j`. -/
def fuelV : Json → Nat
  | .null => 1
  | .bool _ => 1
  | .str _ => 1
  | .arr [] => 1
  | .arr (x :: xs) => 1 + fuelItems (x :: xs)
  | .obj [] => 1
  | .obj (m :: ms) => 1 + fuelMembers (m :: ms)

/-- Fuel sufficient for `parseItems` on printed items. -/
def fuelItems : List Json → Nat
  | [] => 1
  | x :: xs => 1 + max (fuelV x) (fuelItems xs)

/-- Fuel sufficient for `parseMembers` on printed members. -/
def fuelMembers : List (String × Json) → Nat
  | [] => 1
  | m :: ms => 1 + max (fuelV m.2) (fuelMembers ms)

end

/-- A run of insignificant whitespace. -/
def WsList (l : List Char) : Prop :=
  ∀ c ∈ l, isWsChar c = true

lemma skipWs_wsList {ws : List Char} (h : WsList ws) (l : List Char) :
    skipWs (ws ++ l) = skipWs l := by
  induction ws with
  | nil => rfl
  | cons c cs ih =>
    have hc : isWsChar c = true := h c (by simp)
    have hcs : WsList cs := fun x hx => h x (by simp [hx])
    simp [skipWs, hc, ih hcs]

lemma skipWs_cons_not_ws {c : Char} (h : isWsChar c = false) (l : List Char) :
    skipWs (c :: l) = c :: l := by
  simp [skipWs, h]

lemma wsList_spaces (n : Nat) : WsList (spaces n) := by
  intro c hc
  have : c = ' ' := by
    simpa [spaces] using List.eq_of_mem_replicate hc
  simp [this, isWsChar]

lemma wsList_newline_spaces (n : Nat) : WsList ('\n' :: spaces n) := by
  intro c hc
  rcases List.mem_cons.mp hc with rfl | hc
  · rfl
  · exact wsList_spaces n c hc

lemma wsList_nil : WsList [] := fun c hc => absurd hc (List.not_mem_nil c)

lemma wsList_single_space : WsList [' '] := by
  intro c hc
  have : c = ' ' := by simpa using hc
  simp [this, isWsChar]

lemma hexVal_hexDigit : ∀ n, n < 16 → hexVal (hexDigit n) = some n := by decide

lemma hex4Val_hex4 (n : Nat) (h : n < 65536) :
    hex4Val (hexDigit (n / 4096 % 16)) (hexDigit (n / 256 % 16))
      (hexDigit (n / 16 % 16)) (hexDigit (n % 16)) = some n := by
  have h1 := hexVal_hexDigit (n / 4096 % 16) (Nat.mod_lt _ (by norm_num))
  have h2 := hexVal_hexDigit (n / 256 % 16) (Nat.mod_lt _ (by norm_num))
  have h3 := hexVal_hexDigit (n / 16 % 16) (Nat.mod_lt _ (by norm_num))
  have h4 := hexVal_hexDigit (n % 16) (Nat.mod_lt _ (by norm_num))
  unfold hex4Val
  rw [h1, h2, h3, h4]
  dsimp only
  simp only [Option.some.injEq]
  omega

lemma char_toNat_valid (c : Char) :
    c.toNat < 55296 ∨ (57343 < c.toNat ∧ c.toNat < 1114112) := by
  have h := c.valid
  unfold UInt32.isValidChar Nat.isValidChar at h
  rcases h with h | ⟨h1, h2⟩
  · left
    exact_mod_cast h
  · right
    exact ⟨by exact_mod_cast h1, by exact_mod_cast h2⟩

lemma fuelV_pos (j : Json) : 1 ≤ fuelV j := by
  cases j with
  | null => simp [fuelV]
  | bool b => simp [fuelV]
  | str s => simp [fuelV]
  | arr items => cases items <;> simp [fuelV]
  | obj members => cases members <;> simp [fuelV]

lemma fuelItems_pos (xs : List Json) : 1 ≤ fuelItems xs := by
  cases xs <;> simp [fuelItems]

lemma fuelMembers_pos (ms : List (String × Json)) : 1 ≤ fuelMembers ms := by
  cases ms <;> simp [fuelMembers]

lemma dictInsert_fresh {α : Type} (k : String) (v : α)
    (acc : List (String × α)) (h : k ∉ acc.map Prod.fst) :
    dictInsert k v acc = acc ++ [(k, v)] := by
  induction acc with
  | nil => rfl
  | cons p rest ih =>
    have hne : p.1 ≠ k := by
      intro he
      exact h (by simp [he])
    obtain ⟨k2, v2⟩ := p
    simp only [dictInsert]
    rw [if_neg hne]
    simp only [List.cons_append, List.cons.injEq, true_and]
    exact ih (fun hm => h (by simp [hm]))

lemma dedupKeys_foldl (ms : List (String × Json)) :
    ∀ acc : List (String × Json),
      ((acc ++ ms).map Prod.fst).Nodup →
      ms.foldl (fun a kv => dictInsert kv.1 kv.2 a) acc = acc ++ ms := by
  induction ms with
  | nil => intro acc _; simp
  | cons kv rest ih =>
    intro acc hnd
    have hfresh : kv.1 ∉ acc.map Prod.fst := by
      intro hm
      have : ¬(acc.map Prod.fst ++ kv.1 :: rest.map Prod.fst).Nodup := by
        intro hn
        have := (List.nodup_append.mp hn).2.2
        exact this hm (by simp)
      exact this (by simpa using hnd)
    simp only [List.foldl_cons]
    rw [dictInsert_fresh kv.1 kv.2 acc hfresh]
    have hnd2 : (((acc ++ [kv]) ++ rest).map Prod.fst).Nodup := by
      simpa using hnd
    rw [ih (acc ++ [kv]) hnd2]
    simp

lemma dedupKeys_nodup {ms : List (String × Json)}
    (h : (ms.map Prod.fst).Nodup) : dedupKeys ms = ms := by
  unfold dedupKeys
  have := dedupKeys_foldl ms [] (by simpa using h)
  simpa using this


lemma parseStringBody_backslash_u (R : List Char) :
    parseStringBody ('\\' :: 'u' :: R) = parseUEscape R := by
  simp [parseStringBody, parseEscape]

lemma parseUEscape_high (n : Nat) (hn : n < 65536) (h : 55296 ≤ n ∧ n < 56320)
    (R : List Char) :
    parseUEscape (hex4 n ++ R) = parseLowSurrogate n R := by
  simp only [hex4, List.cons_append, List.nil_append]
  simp [parseUEscape, hex4Val_hex4 n hn]
  intro hlt
  omega

lemma parseLowSurrogate_hex (n m : Nat) (hm : m < 65536)
    (h : 56320 ≤ m ∧ m < 57344) (R cs rest : List Char)
    (ih : parseStringBody R = some (cs, rest)) :
    parseLowSurrogate n ('\\' :: 'u' :: (hex4 m ++ R)) =
      some (Char.ofNat (65536 + 1024 * (n - 55296) + (m - 56320)) :: cs, rest) := by
  simp only [hex4, List.cons_append, List.nil_append]
  simp [parseLowSurrogate, hex4Val_hex4 m hm, ih, h.1, h.2]

lemma parseStringBody_escape_astral (c : Char) (R : List Char) (cs rest : List Char)
    (ih : parseStringBody R = some (cs, rest))
    (h1 : ¬c = '"') (h2 : ¬c = '\\') (h3 : ¬c = '\n') (h4 : ¬c = '\t')
    (h5 : ¬c = '\r') (h6 : ¬c = Char.ofNat 8) (h7 : ¬c = Char.ofNat 12)
    (hp : ¬(32 ≤ c.toNat ∧ c.toNat ≤ 126)) (hbmp : ¬(c.toNat < 65536)) :
    parseStringBody (escapeChar c ++ R) = some (c :: cs, rest) := by
  have hv := char_toNat_valid c
  have hup : c.toNat < 1114112 := by omega
  have he : escapeChar c =
      '\\' :: 'u' :: (hex4 (55296 + (c.toNat - 65536) / 1024) ++
        ('\\' :: 'u' :: hex4 (56320 + (c.toNat - 65536) % 1024))) := by
    simp [escapeChar, uEscape, h1, h2, h3, h4, h5, h6, h7, hp, hbmp]
  rw [he]
  have hhi : 55296 + (c.toNat - 65536) / 1024 < 65536 := by omega
  have hmod := Nat.mod_lt (c.toNat - 65536) (show 0 < 1024 by norm_num)
  have hlo : 56320 + (c.toNat - 65536) % 1024 < 65536 := by omega
  rw [List.cons_append, List.cons_append, parseStringBody_backslash_u,
    List.append_assoc,
    parseUEscape_high _ hhi (by omega) _,
    List.cons_append, List.cons_append,
    parseLowSurrogate_hex _ _ hlo (by omega) R cs rest ih]
  have harith : 65536 + 1024 * (55296 + (c.toNat - 65536) / 1024 - 55296) +
      (56320 + (c.toNat - 65536) % 1024 - 56320) = c.toNat := by omega
  rw [harith, Char.ofNat_toNat]

lemma parseStringBody_escape_named (c : Char) (R : List Char) (cs rest : List Char)
    (ih : parseStringBody R = some (cs, rest))
    (hc : c = '"' ∨ c = '\\' ∨ c = '\n' ∨ c = '\t' ∨ c = '\r' ∨
      c = Char.ofNat 8 ∨ c = Char.ofNat 12) :
    parseStringBody (escapeChar c ++ R) = some (c :: cs, rest) := by
  rcases hc with rfl | rfl | rfl | rfl | rfl | rfl | rfl
  · simp [escapeChar, parseStringBody, parseEscape, unescape, ih]
  · simp [escapeChar, parseStringBody, parseEscape, unescape, ih]
  · simp [escapeChar, parseStringBody, parseEscape, unescape, ih]
  · simp [escapeChar, parseStringBody, parseEscape, unescape, ih]
  · simp [escapeChar, parseStringBody, parseEscape, unescape, ih]
  · have he : escapeChar (Char.ofNat 8) = ['\\', 'b'] := by decide
    rw [he]
    simp [parseStringBody, parseEscape, unescape, ih]
  · have he : escapeChar (Char.ofNat 12) = ['\\', 'f'] := by decide
    rw [he]
    simp [parseStringBody, parseEscape, unescape, ih]

lemma parseStringBody_escape_plain (c : Char) (R : List Char) (cs rest : List Char)
    (ih : parseStringBody R = some (cs, rest))
    (h1 : ¬c = '"') (h2 : ¬c = '\\') (h3 : ¬c = '\n') (h4 : ¬c = '\t')
    (h5 : ¬c = '\r') (h6 : ¬c = Char.ofNat 8) (h7 : ¬c = Char.ofNat 12)
    (hp : 32 ≤ c.toNat ∧ c.toNat ≤ 126) :
    parseStringBody (escapeChar c ++ R) = some (c :: cs, rest) := by
  have he : escapeChar c = [c] := by
    simp [escapeChar, h1, h2, h3, h4, h5, h6, h7, hp]
  rw [he]
  have hge : ¬(c.toNat < 32) := by omega
  simp [parseStringBody, h1, h2, hge, ih]

lemma parseStringBody_escape_bmp (c : Char) (R : List Char) (cs rest : List Char)
    (ih : parseStringBody R = some (cs, rest))
    (h1 : ¬c = '"') (h2 : ¬c = '\\') (h3 : ¬c = '\n') (h4 : ¬c = '\t')
    (h5 : ¬c = '\r') (h6 : ¬c = Char.ofNat 8) (h7 : ¬c = Char.ofNat 12)
    (hp : ¬(32 ≤ c.toNat ∧ c.toNat ≤ 126)) (hbmp : c.toNat < 65536) :
    parseStringBody (escapeChar c ++ R) = some (c :: cs, rest) := by
  have he : escapeChar c = '\\' :: 'u' :: hex4 c.toNat := by
    simp [escapeChar, uEscape, h1, h2, h3, h4, h5, h6, h7, hp, hbmp]
  rw [he]
  have hv := char_toNat_valid c
  rw [List.cons_append, List.cons_append, parseStringBody_backslash_u]
  simp only [hex4, List.cons_append, List.nil_append]
  simp [parseUEscape, hex4Val_hex4 c.toNat hbmp, ih]
  rw [if_neg (by omega : ¬(55296 ≤ c.toNat ∧ c.toNat < 56320)),
    if_neg (by omega : ¬(56320 ≤ c.toNat ∧ c.toNat < 57344))]

lemma parseStringBody_escape_step (c : Char) (R : List Char) (cs rest : List Char)
    (ih : parseStringBody R = some (cs, rest)) :
    parseStringBody (escapeChar c ++ R) = some (c :: cs, rest) := by
  by_cases h1 : c = '"'
  · exact parseStringBody_escape_named c R cs rest ih (by tauto)
  · by_cases h2 : c = '\\'
    · exact parseStringBody_escape_named c R cs rest ih (by tauto)
    · by_cases h3 : c = '\n'
      · exact parseStringBody_escape_named c R cs rest ih (by tauto)
      · by_cases h4 : c = '\t'
        · exact parseStringBody_escape_named c R cs rest ih (by tauto)
        · by_cases h5 : c = '\r'
          · exact parseStringBody_escape_named c R cs rest ih (by tauto)
          · by_cases h6 : c = Char.ofNat 8
            · exact parseStringBody_escape_named c R cs rest ih (by tauto)
            · by_cases h7 : c = Char.ofNat 12
              · exact parseStringBody_escape_named c R cs rest ih (by tauto)
              · by_cases hp : 32 ≤ c.toNat ∧ c.toNat ≤ 126
                · exact parseStringBody_escape_plain c R cs rest ih h1 h2 h3 h4 h5 h6 h7 hp
                · by_cases hbmp : c.toNat < 65536
                  · exact parseStringBody_escape_bmp c R cs rest ih h1 h2 h3 h4 h5 h6 h7 hp hbmp
                  · exact parseStringBody_escape_astral c R cs rest ih h1 h2 h3 h4 h5 h6 h7 hp hbmp

lemma parseStringBody_print (cs rest : List Char) :
    parseStringBody (cs.flatMap escapeChar ++ '"' :: rest) = some (cs, rest) := by
  induction cs with
  | nil => simp [parseStringBody]
  | cons c cs ih =>
    rw [List.flatMap_cons, List.append_assoc]
    exact parseStringBody_escape_step c _ cs rest ih

lemma string_mk_data (s : String) : String.mk s.data = s := by
  cases s
  rfl

/-- The first character the printer emits for each kind of value. -/
def printHead : Json → Char
  | .null => 'n'
  | .bool true => 't'
  | .bool false => 'f'
  | .str _ => '"'
  | .arr _ => '['
  | .obj _ => '{'

lemma printJson_cons (d : Nat) (j : Json) :
    ∃ cs, printJson d j = printHead j :: cs := by
  cases j with
  | null => exact ⟨_, rfl⟩
  | bool b => cases b <;> exact ⟨_, rfl⟩
  | str s => exact ⟨_, rfl⟩
  | arr items => cases items <;> exact ⟨_, rfl⟩
  | obj members => cases members <;> exact ⟨_, rfl⟩

lemma printHead_props (j : Json) :
    isWsChar (printHead j) = false ∧ printHead j ≠ ']' ∧ printHead j ≠ '}' := by
  cases j with
  | null => simp [printHead, isWsChar]
  | bool b => cases b <;> simp [printHead, isWsChar]
  | str s => simp [printHead, isWsChar]
  | arr items => simp [printHead, isWsChar]
  | obj members => simp [printHead, isWsChar]

lemma printJson_head (d : Nat) (j : Json) :
    ∃ c cs, printJson d j = c :: cs ∧ isWsChar c = false ∧ c ≠ ']' ∧ c ≠ '}' := by
  obtain ⟨cs, hcs⟩ := printJson_cons d j
  obtain ⟨h1, h2, h3⟩ := printHead_props j
  exact ⟨printHead j, cs, hcs, h1, h2, h3⟩

lemma skipWs_ws_print (ws : List Char) (hws : WsList ws) (d : Nat) (j : Json)
    (rest : List Char) :
    skipWs (ws ++ (printJson d j ++ rest)) = printJson d j ++ rest := by
  rw [skipWs_wsList hws]
  obtain ⟨c, cs, hpr, hnws, _, _⟩ := printJson_head d j
  rw [hpr, List.cons_append, skipWs_cons_not_ws hnws]

lemma skipWs_newline_spaces_append (n : Nat) (l : List Char) :
    skipWs ('\n' :: (spaces n ++ l)) = skipWs l := by
  have h : ('\n' :: (spaces n ++ l)) = (('\n' :: spaces n) ++ l) := rfl
  rw [h, skipWs_wsList (wsList_newline_spaces n)]

lemma skipWs_print_append (d : Nat) (j : Json) (l : List Char) :
    skipWs (printJson d j ++ l) = printJson d j ++ l := by
  obtain ⟨c, cs, hpr, hnws, _, _⟩ := printJson_head d j
  rw [hpr, List.cons_append, skipWs_cons_not_ws hnws]

theorem parse_print (fuel : Nat) :
    (∀ ws d (j : Json) rest, WsList ws → JsonWF j → fuelV j ≤ fuel →
      parseValue fuel (ws ++ (printJson d j ++ rest)) = some (j, rest)) ∧
    (∀ ws d (x : Json) (xs : List Json) tail rest, WsList ws → WsList tail →
      JsonWF x → (∀ y ∈ xs, JsonWF y) → fuelItems (x :: xs) ≤ fuel →
      parseItems fuel
        (ws ++ (printJson d x ++ (printItems d xs ++ (tail ++ ']' :: rest)))) =
        some (x :: xs, rest)) ∧
    (∀ ws d (k : String) (v : Json) (ms : List (String × Json)) tail rest,
      WsList ws → WsList tail → JsonWF v → (∀ kv ∈ ms, JsonWF kv.2) →
      fuelMembers ((k, v) :: ms) ≤ fuel →
      parseMembers fuel
        (ws ++ (printMember d (k, v) ++ (printMembers d ms ++ (tail ++ '}' :: rest)))) =
        some ((k, v) :: ms, rest)) := by
  induction fuel with
  | zero =>
    refine ⟨?_, ?_, ?_⟩
    · intro ws d j rest _ _ hf
      have := fuelV_pos j
      omega
    · intro ws d x xs tail rest _ _ _ _ hf
      have := fuelItems_pos (x :: xs)
      omega
    · intro ws d k v ms tail rest _ _ _ _ hf
      have := fuelMembers_pos ((k, v) :: ms)
      omega
  | succ fuel ih =>
    obtain ⟨ihP, ihQ, ihR⟩ := ih
    refine ⟨?_, ?_, ?_⟩
    · -- parseValue on a printed value
      intro ws d j rest hws hwf hf
      rw [parseValue, skipWs_ws_print ws hws d j rest]
      cases j with
      | null => simp [printJson]
      | bool b => cases b <;> simp [printJson]
      | str s =>
        simp [printJson, printString, List.append_assoc,
          parseStringBody_print s.data rest, string_mk_data]
      | arr items =>
        cases items with
        | nil =>
          simp [printJson]
          rw [skipWs_cons_not_ws (by decide) rest]
          simp
        | cons x xs =>
          have hwa : JsonWF x ∧ ∀ y ∈ xs, JsonWF y := by
            cases hwf with
            | arr _ h => exact ⟨h x (by simp), fun y hy => h y (by simp [hy])⟩
          have hfi : fuelItems (x :: xs) ≤ fuel := by
            simp [fuelV] at hf
            omega
          obtain ⟨c0, cs0, hpx, hnws, hne1, hne2⟩ := printJson_head (d + 1) x
          simp only [printJson, List.cons_append, List.append_assoc,
            List.nil_append]
          rw [skipWs_newline_spaces_append, skipWs_print_append, hpx,
            List.cons_append]
          dsimp only
          rw [if_neg hne1, ← List.cons_append, ← hpx]
          have hq := ihQ [] (d + 1) x xs ('\n' :: spaces (2 * d)) rest
            wsList_nil (wsList_newline_spaces (2 * d)) hwa.1 hwa.2 hfi
          simp only [List.nil_append, List.cons_append] at hq
          rw [hq]
          rfl
      | obj members =>
        cases members with
        | nil =>
          simp [printJson]
          rw [skipWs_cons_not_ws (by decide) rest]
          simp [dedupKeys]
        | cons m ms =>
          obtain ⟨k, v⟩ := m
          have hnd : (((k, v) :: ms).map Prod.fst).Nodup := by
            cases hwf with
            | obj _ h _ => exact h
          have hwv : JsonWF v ∧ ∀ kv ∈ ms, JsonWF kv.2 := by
            cases hwf with
            | obj _ _ h =>
              exact ⟨h (k, v) (by simp), fun kv hkv => h kv (by simp [hkv])⟩
          have hfm : fuelMembers ((k, v) :: ms) ≤ fuel := by
            simp [fuelV] at hf
            omega
          simp only [printJson, List.cons_append, List.append_assoc,
            List.nil_append]
          rw [skipWs_newline_spaces_append]
          have hpm : printMember (d + 1) (k, v) =
              '"' :: (k.data.flatMap escapeChar ++
                ('"' :: (':' :: (' ' :: printJson (d + 1) v)))) := by
            simp [printMember, printString]
          rw [hpm, List.cons_append, skipWs_cons_not_ws (by decide)]
          dsimp only
          rw [if_neg (by decide : ¬('"' : Char) = '}'), ← List.cons_append,
            ← hpm]
          have hr := ihR [] (d + 1) k v ms ('\n' :: spaces (2 * d)) rest
            wsList_nil (wsList_newline_spaces (2 * d)) hwv.1 hwv.2 hfm
          simp only [List.nil_append, List.cons_append] at hr
          rw [hr]
          simp [dedupKeys_nodup hnd]
    · -- parseItems on printed items
      intro ws d x xs tail rest hws htail hwfx hwfxs hfi
      have hfx : fuelV x ≤ fuel := by
        simp [fuelItems] at hfi
        omega
      rw [parseItems]
      have hp := ihP ws d x (printItems d xs ++ (tail ++ ']' :: rest)) hws hwfx hfx
      rw [hp]
      dsimp only
      cases xs with
      | nil =>
        simp only [printItems, List.nil_append]
        rw [skipWs_wsList htail, skipWs_cons_not_ws (by decide) rest]
        dsimp only
        rw [if_neg (by decide : ¬(']' : Char) = ','), if_pos rfl]
      | cons y ys =>
        have hfy : fuelItems (y :: ys) ≤ fuel := by
          simp [fuelItems] at hfi ⊢
          omega
        simp only [printItems, List.cons_append, List.append_assoc,
          List.nil_append]
        rw [skipWs_cons_not_ws (by decide)]
        dsimp only
        rw [if_pos rfl]
        have hq := ihQ ('\n' :: spaces (2 * d)) d y ys tail rest
          (wsList_newline_spaces (2 * d)) htail
          (hwfxs y (by simp)) (fun z hz => hwfxs z (by simp [hz])) hfy
        simp only [List.cons_append, List.append_assoc] at hq
        rw [hq]
        rfl
    · -- parseMembers on printed members
      intro ws d k v ms tail rest hws htail hwfv hwfms hfm
      have hfv : fuelV v ≤ fuel := by
        simp [fuelMembers] at hfm
        omega
      rw [parseMembers]
      simp only [printMember, printString, List.cons_append, List.append_assoc,
        List.nil_append]
      rw [skipWs_wsList hws, skipWs_cons_not_ws (by decide)]
      dsimp only
      rw [if_pos rfl, parseStringBody_print]
      dsimp only
      rw [skipWs_cons_not_ws (by decide)]
      dsimp only
      rw [if_pos rfl]
      have hp := ihP [' '] d v (printMembers d ms ++
        (tail ++ '}' :: rest)) wsList_single_space hwfv hfv
      simp only [List.cons_append, List.nil_append, List.append_assoc] at hp
      rw [hp]
      dsimp only
      cases ms with
      | nil =>
        simp only [printMembers, List.nil_append]
        rw [skipWs_wsList htail, skipWs_cons_not_ws (by decide) rest]
        dsimp only
        rw [if_neg (by decide : ¬('}' : Char) = ','), if_pos rfl]
      | cons m2 ms2 =>
        obtain ⟨k2, v2⟩ := m2
        have hfm2 : fuelMembers ((k2, v2) :: ms2) ≤ fuel := by
          simp [fuelMembers] at hfm ⊢
          omega
        simp only [printMembers, List.cons_append, List.append_assoc,
          List.nil_append]
        rw [skipWs_cons_not_ws (by decide)]
        dsimp only
        rw [if_pos rfl]
        have hr := ihR ('\n' :: spaces (2 * d)) d k2 v2 ms2 tail rest
          (wsList_newline_spaces (2 * d)) htail
          (hwfms (k2, v2) (by simp))
          (fun kv hkv => hwfms kv (by simp [hkv])) hfm2
        simp only [List.cons_append, List.append_assoc] at hr
        rw [hr]
        simp [string_mk_data]

lemma printString_length (s : String) : 2 ≤ (printString s).length := by
  simp [printString]

mutual

theorem fuelV_le_length (j : Json) (d : Nat) :
    fuelV j ≤ (printJson d j).length := by
  cases j with
  | null => simp [fuelV, printJson]
  | bool b => cases b <;> simp [fuelV, printJson]
  | str s =>
    have := printString_length s
    simp only [fuelV, printJson]
    omega
  | arr items =>
    cases items with
    | nil => simp [fuelV, printJson]
    | cons x xs =>
      have h1 := fuelV_le_length x (d + 1)
      have h2 := fuelItems_le_length xs (d + 1)
      simp only [fuelV, fuelItems, printJson, List.length_cons,
        List.length_append]
      omega
  | obj members =>
    cases members with
    | nil => simp [fuelV, printJson]
    | cons m ms =>
      obtain ⟨k, v⟩ := m
      have h1 := fuelV_le_length v (d + 1)
      have h2 := fuelMembers_le_length ms (d + 1)
      have h3 := printString_length k
      simp only [fuelV, fuelMembers, printJson, printMember, List.length_cons,
        List.length_append]
      omega

theorem fuelItems_le_length (xs : List Json) (d : Nat) :
    fuelItems xs ≤ (printItems d xs).length + 1 := by
  cases xs with
  | nil => simp [fuelItems, printItems]
  | cons y ys =>
    have h1 := fuelV_le_length y d
    have h2 := fuelItems_le_length ys d
    simp only [fuelItems, printItems, List.length_cons, List.length_append]
    omega

theorem fuelMembers_le_length (ms : List (String × Json)) (d : Nat) :
    fuelMembers ms ≤ (printMembers d ms).length + 1 := by
  cases ms with
  | nil => simp [fuelMembers, printMembers]
  | cons m ms2 =>
    obtain ⟨k, v⟩ := m
    have h1 := fuelV_le_length v d
    have h2 := fuelMembers_le_length ms2 d
    have h3 := printString_length k
    simp only [fuelMembers, printMembers, printMember, List.length_cons,
      List.length_append]
    omega

end

/-- The codec round trip: parsing the printed form of any well-formed JSON
value gives back exactly that value. -/
theorem loads_dumps (j : Json) (h : JsonWF j) : loads (dumps j) = some j := by
  unfold loads dumps
  have hfuel : fuelV j ≤ (printJson 0 j).length + 1 := by
    have := fuelV_le_length j 0
    omega
  have hp := (parse_print ((printJson 0 j).length + 1)).1 [] 0 j [] wsList_nil h hfuel
  simp only [List.nil_append, List.append_nil] at hp
  simp [hp, skipWs]

/-- C7: loading is fail-soft — a missing file or unparseable content yields
the empty mapping, never an exception — and a scheduler pass over the empty
mapping performs zero dispatches, leaves the store empty and exits cleanly
with zero counters. -/
theorem load_missing_or_corrupt (file : Option String)
    (h : file = none ∨ ∃ s, file = some s ∧ loads s = none) :
    load_followup_tracking file = Json.obj [] ∧
    ∀ (send : String → String → String → Bool) (now : Int),
      send_followups send now [] = .ok ([], 0, 0) := by
  refine ⟨?_, fun send now => rfl⟩
  rcases h with rfl | ⟨s, rfl, hs⟩
  · rfl
  · simp [load_followup_tracking, hs]

theorem load_missing_or_corrupt_witness :
    load_followup_tracking (some "not json") = Json.obj [] ∧
    ∀ (send : String → String → String → Bool) (now : Int),
      send_followups send now [] = .ok ([], 0, 0) :=
  load_missing_or_corrupt (some "not json") (Or.inr ⟨"not json", rfl, by rfl⟩)

/-- C10: the record-store round trip — saving any well-formed tracking
mapping (a JSON object with distinct keys at every level, as any Python dict
is) and loading it back returns exactly the same mapping. -/
theorem store_save_load_roundtrip (ms : List (String × Json))
    (h : JsonWF (Json.obj ms)) :
    load_followup_tracking (save_followup_tracking (Json.obj ms)) =
      Json.obj ms := by
  unfold load_followup_tracking save_followup_tracking
  dsimp only
  rw [loads_dumps _ h]

/-- A one-recipient tracking store in the §3 record shape. -/
def sampleStore : List (String × Json) :=
  [("a@x.com", Json.obj
    [("company_name", Json.str "Acme"),
     ("initial_sent", Json.str "2024-01-01T00:00:00"),
     ("followup_1_sent", Json.null),
     ("replied", Json.bool false)])]

theorem store_save_load_roundtrip_witness :
    load_followup_tracking (save_followup_tracking (Json.obj sampleStore)) =
      Json.obj sampleStore := by
  apply store_save_load_roundtrip
  refine JsonWF.obj _ (by simp [sampleStore]) ?_
  intro kv hkv
  simp only [sampleStore, List.mem_singleton] at hkv
  subst hkv
  refine JsonWF.obj _ (by decide) ?_
  intro kv2 hkv2
  simp only [List.mem_cons, List.mem_singleton] at hkv2
  rcases hkv2 with rfl | rfl | rfl | rfl | h0
  · exact JsonWF.str _
  · exact JsonWF.str _
  · exact JsonWF.null
  · exact JsonWF.bool _
  · exact absurd h0 (List.not_mem_nil kv2)
